import Mathlib

/-!
Verification of the wayoa compositor kernel against its specification.

The definitions below are shallow embeddings of the Rust sources:
  - `src/compositor/surface.rs` (surfaces, damage, double-buffered commit, roles)
  - `src/compositor/window.rs` (windows and focus tracking)
  - `src/compositor/state.rs` (serial counter)
  - `src/protocol/shm.rs` (shared-memory pools and buffers)
  - `src/protocol/shell.rs` (xdg-shell surfaces and the popup positioner)
  - `src/protocol/data_device.rs` (drag-and-drop action negotiation)
  - `src/input/keyboard.rs` (pressed-key tracking)
  - `src/server/dispatch.rs` and `src/server/globals.rs` (request handlers)

Machine integers are modelled as `Nat` (unsigned) and `Int` (signed), with
an explicit `% 2^32` wherever 32-bit truncation happens in the source.
Process-global atomic identity counters are modelled as fields of the
enclosing store so that runs are deterministic functions of the state.
-/

namespace Wayoa

/-- The u32 modulus; `as u32` casts in the source truncate by this. -/
def u32Mod : Nat := 4294967296

-- ===========================================================================
-- src/compositor/surface.rs
-- ===========================================================================

/-- A damage region on a surface (`DamageRect` in surface.rs); i32 fields. -/
structure DamageRect where
  x : Int
  y : Int
  width : Int
  height : Int
deriving DecidableEq, Repr

/-- Buffer information attached to a surface (`BufferInfo` in surface.rs); u32 fields. -/
structure BufferInfo where
  width : Nat
  height : Nat
  stride : Nat
  format : Nat
  offset : Nat
deriving DecidableEq, Repr

/-- Pending (uncommitted) state of a surface (`SurfacePendingState`). -/
structure SurfacePendingState where
  buffer : Option BufferInfo := none
  damage : List DamageRect := []
  transform : Int := 0
  scale : Int := 0
  frame_callbacks : List Nat := []
deriving DecidableEq, Repr

/-- Surface role (`SurfaceRole` in surface.rs). -/
inductive SurfaceRole where
  | none
  | xdgToplevel
  | xdgPopup
  | subsurface
  | cursor
  | layerSurface
deriving DecidableEq, Repr

/-- A Wayland surface (`Surface` in surface.rs). The id is issued by the
process-global `SurfaceId` counter in the source; here it is a plain field. -/
structure Surface where
  id : Nat
  buffer : Option BufferInfo := none
  damage : List DamageRect := []
  transform : Int := 0
  scale : Int := 1
  pending : SurfacePendingState := {}
  role : SurfaceRole := .none
  parent : Option Nat := none
  children : List Nat := []
deriving DecidableEq, Repr

/-- `Surface::new`, with the freshly issued id passed explicitly. -/
def Surface.new (id : Nat) : Surface :=
  { id := id, buffer := none, damage := [], transform := 0, scale := 1,
    pending := {}, role := .none, parent := none, children := [] }

/-- `Surface::attach`: store the (possibly null) buffer in the pending state. -/
def Surface.attach (s : Surface) (buffer : Option BufferInfo) : Surface :=
  { s with pending := { s.pending with buffer := buffer } }

/-- `Surface::damage`: push a damage rectangle onto the pending list.
Named `damageRequest` because the `damage` field occupies the source name. -/
def Surface.damageRequest (s : Surface) (x y width height : Int) : Surface :=
  { s with pending := { s.pending with
      damage := s.pending.damage ++ [{ x := x, y := y, width := width, height := height }] } }

/-- `Surface::frame`: queue a frame callback in the pending state. -/
def Surface.frame (s : Surface) (callback_id : Nat) : Surface :=
  { s with pending := { s.pending with
      frame_callbacks := s.pending.frame_callbacks ++ [callback_id] } }

/-- `Surface::set_scale`. -/
def Surface.set_scale (s : Surface) (scale : Int) : Surface :=
  { s with pending := { s.pending with scale := scale } }

/-- `Surface::set_transform`. -/
def Surface.set_transform (s : Surface) (transform : Int) : Surface :=
  { s with pending := { s.pending with transform := transform } }

/-- `Surface::commit`: the four sequential steps of the source function.
The buffer moves only when the pending slot is non-null or no current buffer
exists (`pending.buffer.is_some() || self.buffer.is_none()`); `Option::take`
leaves `none` behind.  A non-empty pending damage list replaces the current
one via `mem::take`.  Scale and transform use 0 as the unset sentinel. -/
def Surface.commit (s : Surface) : Surface :=
  let s1 :=
    if s.pending.buffer.isSome || s.buffer.isNone then
      { s with buffer := s.pending.buffer,
               pending := { s.pending with buffer := none } }
    else s
  let s2 :=
    if s1.pending.damage.isEmpty then s1
    else
      { s1 with damage := s1.pending.damage,
                pending := { s1.pending with damage := [] } }
  let s3 :=
    if s2.pending.scale ≠ 0 then
      { s2 with scale := s2.pending.scale,
                pending := { s2.pending with scale := 0 } }
    else s2
  let s4 :=
    if s3.pending.transform ≠ 0 then
      { s3 with transform := s3.pending.transform,
                pending := { s3.pending with transform := 0 } }
    else s3
  s4

/-- `Surface::set_role`: fails (leaving the surface untouched) when a
different non-`none` role is already assigned; otherwise stores the role.
Returns the `Result` together with the updated surface. -/
def Surface.set_role (s : Surface) (role : SurfaceRole) :
    Except String Unit × Surface :=
  if s.role ≠ SurfaceRole.none ∧ s.role ≠ role then
    (.error "Surface already has a different role", s)
  else
    (.ok (), { s with role := role })

-- ===========================================================================
-- src/server/dispatch.rs — wl_surface request handlers
-- ===========================================================================

/-- The `wl_surface::Attach` arm of the dispatch handler: a present client
buffer is recorded as a placeholder `BufferInfo` with all fields zero, a null
attach stores `none`. -/
def attachRequest (s : Surface) (bufferPresent : Bool) : Surface :=
  if bufferPresent then
    s.attach (some { width := 0, height := 0, stride := 0, format := 0, offset := 0 })
  else
    s.attach none

/-- The `wl_surface::Commit` arm of the dispatch handler: the pending frame
callbacks are drained first, then `Surface::commit` runs. -/
def commitRequest (s : Surface) : Surface :=
  Surface.commit { s with pending := { s.pending with frame_callbacks := [] } }

-- ===========================================================================
-- src/protocol/shm.rs
-- ===========================================================================

/-- Pixel formats (`ShmFormat` in shm.rs). -/
inductive ShmFormat where
  | argb8888
  | xrgb8888
  | other (v : Nat)
deriving DecidableEq, Repr

/-- `ShmFormat::from_wayland`. -/
def ShmFormat.from_wayland (format : Nat) : ShmFormat :=
  match format with
  | 0 => .argb8888
  | 1 => .xrgb8888
  | v => .other v

/-- `ShmFormat::bytes_per_pixel`: 4 for the two mandatory formats and also
assumed 4 for unknown formats. -/
def ShmFormat.bytes_per_pixel (f : ShmFormat) : Nat :=
  match f with
  | .argb8888 => 4
  | .xrgb8888 => 4
  | .other _ => 4

/-- A shared-memory pool (`ShmPool`); only the identity and the byte size
matter to the kernel logic (the fd and mapping are host resources). -/
structure ShmPool where
  id : Nat
  size : Nat
deriving DecidableEq, Repr

/-- A buffer carved out of a pool (`ShmBuffer`). -/
structure ShmBuffer where
  id : Nat
  pool_id : Nat
  offset : Nat
  width : Nat
  height : Nat
  stride : Nat
  format : ShmFormat
deriving DecidableEq, Repr

/-- The wl_shm handler (`WlShmHandler`): pools and buffers keyed by identity.
The process-global id counters are modelled as the `nextPoolId` and
`nextBufferId` fields. -/
structure WlShmHandler where
  pools : List ShmPool := []
  buffers : List ShmBuffer := []
  nextPoolId : Nat := 1
  nextBufferId : Nat := 1
deriving DecidableEq, Repr

/-- `WlShmHandler::create_pool` (the fd is not tracked). -/
def WlShmHandler.create_pool (h : WlShmHandler) (size : Nat) : Nat × WlShmHandler :=
  let id := h.nextPoolId
  (id, { h with pools := h.pools ++ [{ id := id, size := size }],
                nextPoolId := id + 1 })

/-- SHM errors (`ShmError`). -/
inductive ShmError where
  | invalidPool
  | bufferTooLarge
  | invalidStride
  | invalidFormat
deriving DecidableEq, Repr

/-- `WlShmHandler::create_buffer`: look the pool up, reject a buffer whose
`offset + stride * height` exceeds the pool size, then reject a stride below
`width * bytes_per_pixel`; otherwise insert the buffer.  The two u32
multiplications truncate modulo 2^32 as in the source.  The handler is
returned unchanged on every error path. -/
def WlShmHandler.create_buffer (h : WlShmHandler)
    (pool_id offset width height stride format : Nat) :
    Except ShmError Nat × WlShmHandler :=
  match h.pools.find? (fun p => p.id == pool_id) with
  | none => (.error .invalidPool, h)
  | some pool =>
    let fmt := ShmFormat.from_wayland format
    let buffer_end := offset + (stride * height) % u32Mod
    if pool.size < buffer_end then
      (.error .bufferTooLarge, h)
    else
      let min_stride := (width * fmt.bytes_per_pixel) % u32Mod
      if stride < min_stride then
        (.error .invalidStride, h)
      else
        let id := h.nextBufferId
        (.ok id,
         { h with
             buffers := h.buffers ++
               [{ id := id, pool_id := pool_id, offset := offset, width := width,
                  height := height, stride := stride, format := fmt }],
             nextBufferId := id + 1 })

-- ===========================================================================
-- src/protocol/shell.rs
-- ===========================================================================

/-- Client-set window geometry (`XdgGeometry`). -/
structure XdgGeometry where
  x : Int
  y : Int
  width : Int
  height : Int
deriving DecidableEq, Repr

/-- XDG surface state (`XdgSurface` in shell.rs): the wrapped surface id, a
configured flag and the optional client geometry. -/
structure XdgSurface where
  surface_id : Nat
  configured : Bool
  geometry : Option XdgGeometry
deriving DecidableEq, Repr

/-- `XdgShellHandler::get_xdg_surface` result for an existing surface:
`configured` starts false and no geometry is set. -/
def XdgSurface.new (surface_id : Nat) : XdgSurface :=
  { surface_id := surface_id, configured := false, geometry := none }

/-- `XdgSurface::ack_configure`: the serial argument is ignored and the
surface is marked configured unconditionally. -/
def XdgSurface.ack_configure (s : XdgSurface) (_serial : Nat) : XdgSurface :=
  { s with configured := true }

/-- Popup geometry (`PopupGeometry`). -/
structure PopupGeometry where
  x : Int
  y : Int
  width : Int
  height : Int
deriving DecidableEq, Repr

/-- Anchor edge for popup positioning (`Anchor`). -/
inductive Anchor where
  | none
  | top
  | bottom
  | left
  | right
  | topLeft
  | topRight
  | bottomLeft
  | bottomRight
deriving DecidableEq, Repr

/-- Gravity for popup positioning (`Gravity`). -/
inductive Gravity where
  | none
  | top
  | bottom
  | left
  | right
  | topLeft
  | topRight
  | bottomLeft
  | bottomRight
deriving DecidableEq, Repr

/-- Popup positioner state (`XdgPositioner`). -/
structure XdgPositioner where
  size : Int × Int := (0, 0)
  anchor_rect : Int × Int × Int × Int := (0, 0, 0, 0)
  anchor : Anchor := .none
  gravity : Gravity := .none
  constraint_adjustment : Nat := 0
  offset : Int × Int := (0, 0)
deriving DecidableEq, Repr

/-- `XdgPositioner::calculate_geometry`: anchor point from the anchor edge,
then the gravity displacement, then the offset.  Rust i32 division truncates
toward zero, hence `Int.tdiv`. -/
def XdgPositioner.calculate_geometry (p : XdgPositioner) : PopupGeometry :=
  let ax := p.anchor_rect.1
  let ay := p.anchor_rect.2.1
  let aw := p.anchor_rect.2.2.1
  let ah := p.anchor_rect.2.2.2
  let anchorPt : Int × Int :=
    match p.anchor with
    | .none => (ax + Int.tdiv aw 2, ay + Int.tdiv ah 2)
    | .top => (ax + Int.tdiv aw 2, ay)
    | .bottom => (ax + Int.tdiv aw 2, ay + ah)
    | .left => (ax, ay + Int.tdiv ah 2)
    | .right => (ax + aw, ay + Int.tdiv ah 2)
    | .topLeft => (ax, ay)
    | .topRight => (ax + aw, ay)
    | .bottomLeft => (ax, ay + ah)
    | .bottomRight => (ax + aw, ay + ah)
  let pw := p.size.1
  let ph := p.size.2
  let pos : Int × Int :=
    match p.gravity with
    | .none => (anchorPt.1 - Int.tdiv pw 2, anchorPt.2 - Int.tdiv ph 2)
    | .top => (anchorPt.1 - Int.tdiv pw 2, anchorPt.2 - ph)
    | .bottom => (anchorPt.1 - Int.tdiv pw 2, anchorPt.2)
    | .left => (anchorPt.1 - pw, anchorPt.2 - Int.tdiv ph 2)
    | .right => (anchorPt.1, anchorPt.2 - Int.tdiv ph 2)
    | .topLeft => (anchorPt.1 - pw, anchorPt.2 - ph)
    | .topRight => (anchorPt.1, anchorPt.2 - ph)
    | .bottomLeft => (anchorPt.1 - pw, anchorPt.2)
    | .bottomRight => (anchorPt.1, anchorPt.2)
  { x := pos.1 + p.offset.1, y := pos.2 + p.offset.2, width := pw, height := ph }

-- ===========================================================================
-- src/protocol/data_device.rs
-- ===========================================================================

/-- A single DnD action (`DndAction`). -/
inductive DndAction where
  | none
  | copy
  | move
  | ask
deriving DecidableEq, Repr

/-- The `DndActions` bitflags are a u32 bitmask: COPY = 1, MOVE = 2, ASK = 4.
`bitflags` membership is `(mask & flag) == flag`. -/
def dndCopy : Nat := 1

/-- The MOVE bit of the `DndActions` bitmask. -/
def dndMove : Nat := 2

/-- The ASK bit of the `DndActions` bitmask. -/
def dndAsk : Nat := 4

/-- `DndActions::contains` from the bitflags crate: all bits of `flag` set. -/
def dndContains (mask flag : Nat) : Bool :=
  Nat.land mask flag == flag

/-- A data offer (`DataOffer`): identity, source identity, MIME list, the
source action mask, the receiver preference and the negotiated action. -/
structure DataOffer where
  id : Nat
  source_id : Nat
  mime_types : List String := []
  source_actions : Nat := 0
  preferred_action : DndAction := .none
  action : DndAction := .none
deriving DecidableEq, Repr

/-- `DataOffer::set_actions`: intersect the source mask with the receiver
mask, then run the source's if-chain — each preference branch requires the
preferred action to be available, the fallback tries COPY then MOVE and
otherwise yields `none`. -/
def DataOffer.set_actions (o : DataOffer) (actions : Nat) (preferred : DndAction) :
    DataOffer :=
  let available := Nat.land o.source_actions actions
  let negotiated :=
    if dndContains available dndCopy ∧ preferred = DndAction.copy then
      DndAction.copy
    else if dndContains available dndMove ∧ preferred = DndAction.move then
      DndAction.move
    else if dndContains available dndAsk ∧ preferred = DndAction.ask then
      DndAction.ask
    else if dndContains available dndCopy then
      DndAction.copy
    else if dndContains available dndMove then
      DndAction.move
    else
      DndAction.none
  { o with preferred_action := preferred, action := negotiated }

/-- Modelled from the spec: the negotiation rule as the specification words
it — the receiver preference when it lies in the intersection, otherwise the
first of copy and move present there, otherwise no action (the amended rule;
the original claim also lets `ask` be picked as a fallback). -/
def negotiationAmendedRule (available : Nat) (preferred : DndAction) : DndAction :=
  let inInter : DndAction → Bool
    | .none => false
    | .copy => dndContains available dndCopy
    | .move => dndContains available dndMove
    | .ask => dndContains available dndAsk
  if inInter preferred then preferred
  else if dndContains available dndCopy then .copy
  else if dndContains available dndMove then .move
  else .none

-- ===========================================================================
-- src/input/keyboard.rs
-- ===========================================================================

/-- Keyboard modifier state (`ModifierState`). -/
structure ModifierState where
  depressed : Nat := 0
  latched : Nat := 0
  locked : Nat := 0
  group : Nat := 0
deriving DecidableEq, Repr

/-- Keyboard state (`Keyboard` in keyboard.rs). -/
structure Keyboard where
  focus : Option Nat := none
  pressed_keys : List Nat := []
  modifiers : ModifierState := {}
  repeat_rate : Nat := 25
  repeat_delay : Nat := 600
  keymap : Option String := none
deriving DecidableEq, Repr

/-- `Keyboard::new`. -/
def Keyboard.new : Keyboard :=
  { focus := none, pressed_keys := [], modifiers := {},
    repeat_rate := 25, repeat_delay := 600, keymap := none }

/-- `Keyboard::key_press`: push the keycode and report true only when it is
not yet pressed. -/
def Keyboard.key_press (kb : Keyboard) (keycode : Nat) : Bool × Keyboard :=
  if kb.pressed_keys.contains keycode then
    (false, kb)
  else
    (true, { kb with pressed_keys := kb.pressed_keys ++ [keycode] })

/-- `Keyboard::key_release`: the source locates the first position holding
the keycode and removes that element, which is exactly `List.erase`; reports
true only when the keycode was pressed. -/
def Keyboard.key_release (kb : Keyboard) (keycode : Nat) : Bool × Keyboard :=
  if kb.pressed_keys.contains keycode then
    (true, { kb with pressed_keys := kb.pressed_keys.erase keycode })
  else
    (false, kb)

/-- One key event, for quantifying over whole interaction histories. -/
inductive KeyOp where
  | press (keycode : Nat)
  | release (keycode : Nat)
deriving DecidableEq, Repr

/-- Apply one key event. -/
def applyKeyOp (kb : Keyboard) (op : KeyOp) : Keyboard :=
  match op with
  | .press k => (kb.key_press k).2
  | .release k => (kb.key_release k).2

/-- Run a history of key events from a given keyboard state. -/
def runKeyOpsFrom (kb : Keyboard) (ops : List KeyOp) : Keyboard :=
  ops.foldl applyKeyOp kb

/-- Run a history of key events from `Keyboard::new`. -/
def runKeyOps (ops : List KeyOp) : Keyboard :=
  runKeyOpsFrom Keyboard.new ops

-- ===========================================================================
-- src/compositor/window.rs
-- ===========================================================================

/-- Window state flags (`WindowState`). -/
structure WindowState where
  maximized : Bool := false
  fullscreen : Bool := false
  minimized : Bool := false
  focused : Bool := false
  activated : Bool := false
  resizing : Bool := false
  moving : Bool := false
deriving DecidableEq, Repr

/-- Window geometry (`WindowGeometry`). -/
structure WindowGeometry where
  x : Int := 0
  y : Int := 0
  width : Nat := 0
  height : Nat := 0
deriving DecidableEq, Repr

/-- A toplevel window (`Window` in window.rs); the native handle is a host
resource and is not tracked. -/
structure Window where
  id : Nat
  surface_id : Nat
  title : Option String := none
  app_id : Option String := none
  maximized : Bool := false
  fullscreen : Bool := false
  geometry : WindowGeometry := {}
  min_size : Nat × Nat := (0, 0)
  max_size : Nat × Nat := (0, 0)
  state : WindowState := {}
  parent : Option Nat := none
deriving DecidableEq, Repr

/-- `Window::new`, with the freshly issued id passed explicitly. -/
def Window.new (id surface_id : Nat) : Window :=
  { id := id, surface_id := surface_id }

/-- `Window::set_focused` (the per-window flag setter). -/
def Window.set_focused (w : Window) (focused : Bool) : Window :=
  { w with state := { w.state with focused := focused } }

/-- `Window::set_activated`. -/
def Window.set_activated (w : Window) (activated : Bool) : Window :=
  { w with state := { w.state with activated := activated } }

/-- The window store (`WindowManager`): windows keyed by id, the
surface-to-window map, and the recorded focused window.  The process-global
`WindowId` counter is the `nextWindowId` field (it starts at 1). -/
structure WindowManager where
  windows : List Window := []
  surface_to_window : List (Nat × Nat) := []
  focused_window : Option Nat := none
  nextWindowId : Nat := 1
deriving DecidableEq, Repr

/-- `WindowManager::new`. -/
def WindowManager.new : WindowManager :=
  { windows := [], surface_to_window := [], focused_window := none, nextWindowId := 1 }

/-- `WindowManager::create_window`: a fresh id, both maps updated (the
surface map insert replaces any entry for the same surface, as HashMap
insert does). -/
def WindowManager.create_window (m : WindowManager) (surface_id : Nat) :
    Nat × WindowManager :=
  let id := m.nextWindowId
  (id,
   { m with
       windows := m.windows ++ [Window.new id surface_id],
       surface_to_window :=
         (surface_id, id) :: m.surface_to_window.filter (fun e => e.1 ≠ surface_id),
       nextWindowId := id + 1 })

/-- `WindowManager::get`. -/
def WindowManager.get (m : WindowManager) (id : Nat) : Option Window :=
  m.windows.find? (fun w => w.id == id)

/-- `WindowManager::window_for_surface`. -/
def WindowManager.window_for_surface (m : WindowManager) (surface_id : Nat) : Option Nat :=
  (m.surface_to_window.find? (fun e => e.1 == surface_id)).map (fun e => e.2)

/-- `WindowManager::remove`: delete the window (when present) from both maps
and clear the recorded focus when the removed window was the focused one. -/
def WindowManager.remove (m : WindowManager) (id : Nat) :
    Option Window × WindowManager :=
  match m.windows.find? (fun w => w.id == id) with
  | none => (none, m)
  | some w =>
    (some w,
     { m with
         windows := m.windows.filter (fun v => v.id ≠ id),
         surface_to_window := m.surface_to_window.filter (fun e => e.1 ≠ w.surface_id),
         focused_window :=
           if m.focused_window = some id then none else m.focused_window })

/-- `WindowManager::set_focused`: clear the flags of the previously recorded
window (when it still exists), record the new id, set the flags of the newly
recorded window (when it exists). -/
def WindowManager.set_focused (m : WindowManager) (id : Option Nat) : WindowManager :=
  let m1 :=
    match m.focused_window with
    | some prev =>
      { m with windows := m.windows.map (fun (w : Window) =>
          if w.id = prev then (w.set_focused false).set_activated false else w) }
    | none => m
  let m2 := { m1 with focused_window := id }
  match id with
  | some newId =>
    { m2 with windows := m2.windows.map (fun (w : Window) =>
        if w.id = newId then (w.set_focused true).set_activated true else w) }
  | none => m2

/-- One `WindowManager` operation, for quantifying over whole histories. -/
inductive WmOp where
  | create (surface_id : Nat)
  | setFocused (id : Option Nat)
  | remove (id : Nat)
deriving DecidableEq, Repr

/-- Apply one `WindowManager` operation. -/
def applyWmOp (m : WindowManager) (op : WmOp) : WindowManager :=
  match op with
  | .create sid => (m.create_window sid).2
  | .setFocused id => m.set_focused id
  | .remove id => (m.remove id).2

/-- Run a history of operations from a given manager state. -/
def runWmFrom (m : WindowManager) (ops : List WmOp) : WindowManager :=
  ops.foldl applyWmOp m

/-- Run a history of operations from `WindowManager::new`. -/
def runWm (ops : List WmOp) : WindowManager :=
  runWmFrom WindowManager.new ops

-- ===========================================================================
-- src/compositor/state.rs and src/server/globals.rs
-- ===========================================================================

/-- The compositor state pieces the xdg_surface dispatch path touches
(`CompositorState`): the surface store, the window store and the serial
counter (an AtomicU64 starting at 1 in the source). -/
structure CompositorModel where
  surfaces : List (Nat × Surface) := []
  windows : WindowManager := WindowManager.new
  serial : Nat := 1
deriving DecidableEq, Repr

/-- `CompositorState::next_serial`: fetch-and-add returning the previous
counter value truncated to u32. -/
def CompositorModel.next_serial (st : CompositorModel) : Nat × CompositorModel :=
  (st.serial % u32Mod, { st with serial := st.serial + 1 })

/-- Events emitted on the xdg_surface dispatch path in globals.rs. -/
inductive Event where
  | toplevelConfigure (width height : Nat) (states : List Nat)
  | xdgConfigure (serial : Nat)
  | popupConfigure (x y width height : Int)
deriving DecidableEq, Repr

/-- The `xdg_surface::GetToplevel` arm of the dispatch handler: assign the
toplevel role (the `Result` is discarded), create a window, emit
`configure(640, 480, [])` on the toplevel and then `xdg_surface.configure`
with a fresh serial. -/
def getToplevel (st : CompositorModel) (surface_id : Nat) :
    CompositorModel × Nat × List Event :=
  let surfaces := st.surfaces.map (fun e =>
    if e.1 = surface_id then (e.1, (e.2.set_role .xdgToplevel).2) else e)
  let wres := st.windows.create_window surface_id
  let st1 : CompositorModel := { st with surfaces := surfaces, windows := wres.2 }
  let sres := st1.next_serial
  (sres.2, wres.1,
   [Event.toplevelConfigure 640 480 [], Event.xdgConfigure sres.1])

/-- The `xdg_surface::AckConfigure` arm of the dispatch handler in
globals.rs: it only logs; the state is untouched and no event or protocol
error is produced. -/
def serverAckConfigure (st : CompositorModel) (_serial : Nat) : CompositorModel :=
  st

-- ===========================================================================
-- Auxiliary definitions used by the statements below
-- ===========================================================================

/-- A point lies inside a damage rectangle; this is the notion of covered
area used to compare damage lists. -/
def DamageRect.coversPt (r : DamageRect) (p : Int × Int) : Prop :=
  r.x ≤ p.1 ∧ p.1 < r.x + r.width ∧ r.y ≤ p.2 ∧ p.2 < r.y + r.height

instance (r : DamageRect) (p : Int × Int) : Decidable (r.coversPt p) :=
  inferInstanceAs (Decidable (_ ∧ _ ∧ _ ∧ _))

/-- A damage list covers a point when one of its rectangles does. -/
def damageCovers (l : List DamageRect) (p : Int × Int) : Prop :=
  ∃ r ∈ l, r.coversPt p

instance (l : List DamageRect) (p : Int × Int) : Decidable (damageCovers l p) :=
  inferInstanceAs (Decidable (∃ r ∈ l, r.coversPt p))

/-- A surface with committed damage at (0,0,1,1) and pending damage at
(5,5,1,1), reached through the damage and commit requests. -/
def c4Surface : Surface :=
  (Surface.commit ((Surface.new 2).damageRequest 0 0 1 1)).damageRequest 5 5 1 1

/-- The positioner of spec scenario S5: anchor rectangle (10, 20, 100, 50),
popup size (200, 100), anchor and gravity bottom-right, zero offset. -/
def s5Positioner : XdgPositioner :=
  { size := (200, 100), anchor_rect := (10, 20, 100, 50),
    anchor := .bottomRight, gravity := .bottomRight,
    constraint_adjustment := 0, offset := (0, 0) }

/-- A compositor state holding one fresh surface, as after `create_surface`. -/
def c6Model : CompositorModel :=
  { surfaces := [(1, Surface.new 1)], windows := WindowManager.new, serial := 1 }

/-- A data offer whose source advertises only the ask action. -/
def c8Offer : DataOffer :=
  { id := 1, source_id := 1, mime_types := [], source_actions := dndAsk,
    preferred_action := .none, action := .none }

/-- The clearing pass of `WindowManager::set_focused` on one window. -/
def focusClearStep (prev : Option Nat) (w : Window) : Window :=
  match prev with
  | some p => if w.id = p then (w.set_focused false).set_activated false else w
  | none => w

/-- The marking pass of `WindowManager::set_focused` on one window. -/
def focusMarkStep (id : Option Nat) (w : Window) : Window :=
  match id with
  | some n => if w.id = n then (w.set_focused true).set_activated true else w
  | none => w

/-- A `set_focused` argument is valid when it names `none` or an existing
window; `create` and `remove` are always valid. -/
def wmOpValid (m : WindowManager) : WmOp → Bool
  | .setFocused (some i) => m.windows.any (fun w => w.id == i)
  | _ => true

/-- Validity of a whole operation history, checked state by state. -/
def wmValidRun : WindowManager → List WmOp → Bool
  | _, [] => true
  | m, op :: ops => wmOpValid m op && wmValidRun (applyWmOp m op) ops

/-- The focus facts that hold of every reachable `WindowManager` state:
every flagged window is the recorded one, window ids are distinct, and ids
stay below the id counter. -/
def WmInv (m : WindowManager) : Prop :=
  (∀ w ∈ m.windows, w.state.focused = true → m.focused_window = some w.id)
  ∧ (m.windows.map Window.id).Nodup
  ∧ (∀ w ∈ m.windows, w.id < m.nextWindowId)

/-- The additional facts restored by restricting `set_focused` to valid
arguments: the recorded window (when it exists) is flagged, and the record
always names an existing window. -/
def WmInvStrong (m : WindowManager) : Prop :=
  WmInv m
  ∧ (∀ w ∈ m.windows, m.focused_window = some w.id → w.state.focused = true)
  ∧ (∀ i, m.focused_window = some i → ∃ w ∈ m.windows, w.id = i)

-- ===========================================================================
-- Theorems
-- ===========================================================================

/-- C1: the claim says that after Attach(B), Commit, Attach(null), Commit
the surface has no current buffer.  Evaluating the dispatch handlers and
`Surface::commit` on exactly that request sequence shows the current buffer
is still the one attached first: the commit after the explicit null attach
does not replace the current buffer reference, because `Surface::commit`
moves the pending slot only when it is non-null or no current buffer
exists. -/
theorem c1_null_attach_commit_retains_buffer :
    (commitRequest (attachRequest (commitRequest (attachRequest (Surface.new 1) true)) false)).buffer
      = some { width := 0, height := 0, stride := 0, format := 0, offset := 0 }
    ∧ (commitRequest (attachRequest (commitRequest (attachRequest (Surface.new 1) true)) false)).buffer
      ≠ none := by
  decide

/-- C2 counterexample: on a fresh `xdg_surface` on which no configure was
ever issued, `ack_configure(42)` succeeds and flips the configured flag —
the claim requires a protocol error and an unchanged configured state. -/
theorem c2_ack_unknown_serial_succeeds :
    (XdgSurface.new 1).configured = false
    ∧ ((XdgSurface.new 1).ack_configure 42).configured = true := by
  decide

/-- C2 amended: `ack_configure` succeeds for every serial, marking the
surface configured; the result does not depend on the serial at all, no
other field changes, and the dispatch arm performs no state change and
raises no protocol error. -/
theorem c2_ack_ignores_serial :
    ∀ (s : XdgSurface) (n m : Nat),
      (s.ack_configure n).configured = true
      ∧ s.ack_configure n = s.ack_configure m
      ∧ (s.ack_configure n).surface_id = s.surface_id
      ∧ (s.ack_configure n).geometry = s.geometry
      ∧ (∀ st : CompositorModel, serverAckConfigure st n = st) := by
  intro s n m
  exact ⟨rfl, rfl, rfl, rfl, fun _ => rfl⟩

/-- C3 counterexample: on a pool of size 100, `create_buffer` with width 0,
height 0, stride 0 succeeds — the claim requires a failure because w > 0 and
h > 0 are violated.  The source never checks positivity of the
dimensions. -/
theorem c3_zero_size_buffer_accepted :
    (WlShmHandler.create_buffer
        { pools := [{ id := 1, size := 100 }], buffers := [],
          nextPoolId := 2, nextBufferId := 1 }
        1 0 0 0 0 0).1
      = Except.ok 1 := by
  rfl

/-- C4 counterexample: the surface `c4Surface` has current damage covering
the point (0,0) and pending damage at (5,5); after commit the point (0,0)
is no longer covered, so the committed damage does not cover the union of
the pre-commit current area and the pending area — the commit replaces the
current damage list instead of merging into it. -/
theorem c4_commit_drops_damage_area :
    damageCovers c4Surface.damage (0, 0)
    ∧ ¬ damageCovers (Surface.commit c4Surface).damage (0, 0) := by
  decide

/-- C6 counterexample: `get_toplevel` on a fresh surface emits the toplevel
configure with suggested size (640, 480), not (0, 0) as the claim states
(the states list is empty and the xdg_surface configure carries serial 1 as
claimed). -/
theorem c6_initial_configure_is_640_480 :
    (getToplevel c6Model 1).2.2
      = [Event.toplevelConfigure 640 480 [], Event.xdgConfigure 1]
    ∧ Event.toplevelConfigure 640 480 [] ≠ Event.toplevelConfigure 0 0 [] := by
  decide

/-- C8 counterexample: source mask = {ask}, receiver mask = {ask}, receiver
preference copy.  The intersection contains ask, the preference is
unavailable, and the claim requires the first available action of copy,
move, ask — that is ask; the code negotiates `none` because its fallback
chain never selects ask. -/
theorem c8_ask_never_fallback :
    (c8Offer.set_actions dndAsk DndAction.copy).action = DndAction.none
    ∧ Nat.land c8Offer.source_actions dndAsk = dndAsk
    ∧ DndAction.none ≠ DndAction.ask := by
  decide

/-- C9 counterexample: starting from a keyboard with key 30 already
pressed, the pair press(30) then release(30) does not restore the
pressed-key set: the press is a no-op (returns false) but the release still
removes the key. -/
theorem c9_press_release_pair_not_restoring :
    ((((Keyboard.new.key_press 30).2.key_press 30).2.key_release 30).2).pressed_keys
      ≠ (Keyboard.new.key_press 30).2.pressed_keys := by
  decide

/-- C10 counterexample: the history set_focused(Some 1) then create_window
(which allocates window id 1) yields a state where the recorded focused
window is id 1 while window 1's focused flag is false — the claimed
biconditional between the flag and the recorded focus fails when
`set_focused` names a not-yet-allocated id. -/
theorem c10_focus_biconditional_fails :
    (runWm [WmOp.setFocused (some 1), WmOp.create 7]).focused_window = some 1
    ∧ (∃ w ∈ (runWm [WmOp.setFocused (some 1), WmOp.create 7]).windows,
        w.id = 1 ∧ w.state.focused = false) := by
  decide

/-- C3 amended: for u32 inputs whose products do not overflow,
`create_buffer` succeeds exactly when the pool exists, the buffer lies
within the pool (`offset + stride·height ≤ pool.size`) and the stride is at
least `width · 4`; positivity of width and height is not required.  Every
failure leaves the handler (and so the buffer store) unchanged. -/
theorem c3_create_buffer_validation :
    ∀ (h : WlShmHandler) (pool_id offset width height stride format : Nat),
      stride * height < u32Mod →
      width * 4 < u32Mod →
      ((∃ bid, (h.create_buffer pool_id offset width height stride format).1 = Except.ok bid)
        ↔ ∃ p, h.pools.find? (fun q => q.id == pool_id) = some p
            ∧ offset + stride * height ≤ p.size
            ∧ width * 4 ≤ stride)
      ∧ (∀ e, (h.create_buffer pool_id offset width height stride format).1 = Except.error e →
          (h.create_buffer pool_id offset width height stride format).2 = h) := by
  intro h pool_id offset width height stride format h1 h2
  have hbpp : ∀ f : ShmFormat, f.bytes_per_pixel = 4 := by
    intro f
    cases f <;> rfl
  unfold WlShmHandler.create_buffer
  cases hf : h.pools.find? (fun q => q.id == pool_id) with
  | none =>
    simp
  | some pool =>
    simp only [hbpp, Nat.mod_eq_of_lt h1, Nat.mod_eq_of_lt h2, hf]
    split_ifs with hA hB
    · constructor
      · constructor
        · rintro ⟨bid, hbid⟩
          cases hbid
        · rintro ⟨p, hp, hle, _⟩
          cases hp
          omega
      · intro e _
        rfl
    · constructor
      · constructor
        · rintro ⟨bid, hbid⟩
          cases hbid
        · rintro ⟨p, hp, _, hstride⟩
          cases hp
          omega
      · intro e _
        rfl
    · constructor
      · constructor
        · intro _
          exact ⟨pool, rfl, by omega, by omega⟩
        · intro _
          exact ⟨h.nextBufferId, rfl⟩
      · intro e he
        cases he

/-- C3 witness: a 10×10 buffer with stride 40 at offset 0 in a 4000-byte
pool is accepted, by the validation theorem instantiated concretely. -/
theorem c3_create_buffer_validation_witness :
    ∃ bid, (WlShmHandler.create_buffer
        { pools := [{ id := 1, size := 4000 }], buffers := [],
          nextPoolId := 2, nextBufferId := 1 }
        1 0 10 10 40 0).1 = Except.ok bid :=
  (c3_create_buffer_validation
      { pools := [{ id := 1, size := 4000 }], buffers := [],
        nextPoolId := 2, nextBufferId := 1 }
      1 0 10 10 40 0 (by decide) (by decide)).1.mpr
    ⟨{ id := 1, size := 4000 }, by decide, by decide, by decide⟩

/-- The damage field after `Surface::commit`: the pending list when it is
non-empty, the previous current list otherwise. -/
theorem commit_damage_eq (s : Surface) :
    (Surface.commit s).damage =
      if s.pending.damage.isEmpty then s.damage else s.pending.damage := by
  by_cases h1 : (s.pending.buffer.isSome || s.buffer.isNone) = true <;>
  by_cases h2 : s.pending.damage.isEmpty = true <;>
  simp [Surface.commit, h1, h2] <;>
  split_ifs <;> rfl

/-- C4 amended: at commit the pending damage replaces the current list when
non-empty and the current list is retained when the pending list is empty;
hence the committed damage covers all pending area, but area covered only
by the pre-commit current list is dropped whenever pending damage exists. -/
theorem c4_commit_damage_covers_pending :
    ∀ (s : Surface) (p : Int × Int),
      (damageCovers s.pending.damage p → damageCovers (Surface.commit s).damage p)
      ∧ (s.pending.damage = [] → (Surface.commit s).damage = s.damage)
      ∧ (s.pending.damage ≠ [] → (Surface.commit s).damage = s.pending.damage) := by
  intro s p
  have hd := commit_damage_eq s
  by_cases h : s.pending.damage = []
  · refine ⟨?_, fun _ => ?_, fun hne => absurd h hne⟩
    · rintro ⟨r, hr, _⟩
      rw [h] at hr
      cases hr
    · rw [hd, h]
      simp
  · have he : s.pending.damage.isEmpty = false := by
      simp [List.isEmpty_iff, h]
    rw [he] at hd
    simp only [if_false, Bool.false_eq_true] at hd
    exact ⟨fun hc => hd ▸ hc, fun habs => absurd habs h, fun _ => hd⟩

/-- C4 witness: for the concrete surface `c4Surface`, the committed damage
covers the pending point (5,5); and a fresh surface with no pending damage
keeps its current damage list at commit. -/
theorem c4_commit_damage_covers_pending_witness :
    damageCovers (Surface.commit c4Surface).damage (5, 5)
    ∧ (Surface.commit (Surface.new 3)).damage = (Surface.new 3).damage :=
  ⟨(c4_commit_damage_covers_pending c4Surface (5, 5)).1 (by decide),
   (c4_commit_damage_covers_pending (Surface.new 3) (0, 0)).2.1 rfl⟩

/-- C5: `set_role` succeeds exactly when the surface role is `none` or
already equals the assigned role; on success the role becomes the assigned
one, and an assignment of a different non-`none` role fails and leaves the
surface (in particular its role) unchanged. -/
theorem c5_set_role_exclusive :
    ∀ (s : Surface) (r : SurfaceRole),
      (((s.set_role r).1 = Except.ok ()) ↔ (s.role = SurfaceRole.none ∨ s.role = r))
      ∧ ((s.set_role r).1 = Except.ok () → (s.set_role r).2.role = r)
      ∧ (s.role ≠ SurfaceRole.none → s.role ≠ r →
          (s.set_role r).1 ≠ Except.ok () ∧ (s.set_role r).2 = s) := by
  intro s r
  by_cases h : s.role ≠ SurfaceRole.none ∧ s.role ≠ r
  · have hfail : s.set_role r = (.error "Surface already has a different role", s) := by
      simp [Surface.set_role, h]
    rw [hfail]
    refine ⟨?_, ?_, ?_⟩
    · constructor
      · intro habs
        cases habs
      · intro hor
        rcases hor with h0 | h0
        · exact absurd h0 h.1
        · exact absurd h0 h.2
    · intro habs
      cases habs
    · intro _ _
      exact ⟨(fun habs => by cases habs), rfl⟩
  · have hok : s.set_role r = (.ok (), { s with role := r }) := by
      simp only [Surface.set_role, if_neg h]
    rw [hok]
    rcases not_and_or.mp h with h0 | h0
    · refine ⟨⟨fun _ => Or.inl (not_not.mp h0), fun _ => rfl⟩, fun _ => rfl, ?_⟩
      intro hne _
      exact absurd (not_not.mp h0) hne
    · refine ⟨⟨fun _ => Or.inr (not_not.mp h0), fun _ => rfl⟩, fun _ => rfl, ?_⟩
      intro _ hne
      exact absurd (not_not.mp h0) hne

/-- C5 witness: a surface holding the toplevel role rejects the popup role
and is left unchanged, by the exclusivity theorem instantiated concretely. -/
theorem c5_set_role_exclusive_witness :
    ((((Surface.new 1).set_role SurfaceRole.xdgToplevel).2).set_role SurfaceRole.xdgPopup).1
      ≠ Except.ok ()
    ∧ ((((Surface.new 1).set_role SurfaceRole.xdgToplevel).2).set_role SurfaceRole.xdgPopup).2
      = (((Surface.new 1).set_role SurfaceRole.xdgToplevel).2) :=
  (c5_set_role_exclusive (((Surface.new 1).set_role SurfaceRole.xdgToplevel).2)
      SurfaceRole.xdgPopup).2.2 (by decide) (by decide)

/-- C6 amended: `get_toplevel` emits a toplevel configure suggesting size
(640, 480) with an empty states list, followed by an `xdg_surface.configure`
carrying the current value of the serial counter, which is incremented; two
successive `get_toplevel` requests therefore carry distinct serials. -/
theorem c6_get_toplevel_configure :
    ∀ (st : CompositorModel) (sid sid2 : Nat),
      (getToplevel st sid).2.2
        = [Event.toplevelConfigure 640 480 [], Event.xdgConfigure (st.serial % u32Mod)]
      ∧ ((getToplevel st sid).1).serial = st.serial + 1
      ∧ (getToplevel ((getToplevel st sid).1) sid2).2.2 ≠ (getToplevel st sid).2.2 := by
  intro st sid sid2
  refine ⟨rfl, rfl, ?_⟩
  intro hcontra
  have h1 : (getToplevel ((getToplevel st sid).1) sid2).2.2
      = [Event.toplevelConfigure 640 480 [],
         Event.xdgConfigure ((st.serial + 1) % u32Mod)] := rfl
  have h2 : (getToplevel st sid).2.2
      = [Event.toplevelConfigure 640 480 [],
         Event.xdgConfigure (st.serial % u32Mod)] := rfl
  rw [h1, h2] at hcontra
  simp only [List.cons.injEq, Event.xdgConfigure.injEq, and_true, true_and] at hcontra
  simp only [u32Mod] at hcontra
  omega

/-- C7: the S5 positioner (anchor rect (10,20,100,50), size (200,100),
anchor and gravity bottom-right, zero offset) yields origin (110, 70) and
size (200, 100); in general the popup keeps the requested size, the offset
is added to the gravity-placed position, and with anchor bottom-right and
gravity bottom-right the popup origin is exactly the bottom-right corner of
the anchor rectangle (the anchor point named by the anchor edge). -/
theorem c7_popup_placement :
    s5Positioner.calculate_geometry = { x := 110, y := 70, width := 200, height := 100 }
    ∧ (∀ p : XdgPositioner,
        (p.calculate_geometry).width = p.size.1 ∧ (p.calculate_geometry).height = p.size.2)
    ∧ (∀ p : XdgPositioner,
        (p.calculate_geometry).x
          = (({ p with offset := (0, 0) } : XdgPositioner).calculate_geometry).x + p.offset.1
        ∧ (p.calculate_geometry).y
          = (({ p with offset := (0, 0) } : XdgPositioner).calculate_geometry).y + p.offset.2)
    ∧ (∀ ax ay aw ah pw ph : Int,
        (({ size := (pw, ph), anchor_rect := (ax, ay, aw, ah), anchor := .bottomRight,
            gravity := .bottomRight, constraint_adjustment := 0, offset := (0, 0) } :
            XdgPositioner).calculate_geometry)
          = { x := ax + aw, y := ay + ah, width := pw, height := ph }) := by
  refine ⟨by decide, fun p => ⟨rfl, rfl⟩, fun p => ?_, fun ax ay aw ah pw ph => ?_⟩
  · simp [XdgPositioner.calculate_geometry]
  · simp [XdgPositioner.calculate_geometry]

/-- C8 amended: the negotiated action is drawn from the intersection of the
source and receiver masks; the receiver preference wins when it lies in the
intersection, otherwise the first of copy then move present there is taken,
and otherwise the action is none — ask is selected only as an honoured
preference, never as a fallback. -/
theorem c8_negotiation_rule :
    ∀ (o : DataOffer) (actions : Nat) (preferred : DndAction),
      (o.set_actions actions preferred).action
        = negotiationAmendedRule (Nat.land o.source_actions actions) preferred
      ∧ (o.set_actions actions preferred).preferred_action = preferred
      ∧ (o.set_actions actions preferred).source_actions = o.source_actions := by
  intro o actions preferred
  refine ⟨?_, rfl, rfl⟩
  cases preferred <;>
    simp only [DataOffer.set_actions, negotiationAmendedRule] <;>
    split_ifs <;> simp_all

/-- One key event preserves distinctness of the pressed-key list. -/
theorem keyboard_nodup_step (kb : Keyboard) (op : KeyOp)
    (h : kb.pressed_keys.Nodup) : (applyKeyOp kb op).pressed_keys.Nodup := by
  cases op with
  | press k =>
    by_cases hc : k ∈ kb.pressed_keys
    · simp [applyKeyOp, Keyboard.key_press, hc, h]
    · simp [applyKeyOp, Keyboard.key_press, hc, List.nodup_append, h]
  | release k =>
    by_cases hc : k ∈ kb.pressed_keys
    · simp only [applyKeyOp, Keyboard.key_release]
      simp [hc]
      exact h.erase k
    · simp [applyKeyOp, Keyboard.key_release, hc, h]

/-- Every key-event history keeps the pressed-key list duplicate-free. -/
theorem runKeyOpsFrom_nodup (ops : List KeyOp) :
    ∀ kb : Keyboard, kb.pressed_keys.Nodup → (runKeyOpsFrom kb ops).pressed_keys.Nodup := by
  induction ops with
  | nil =>
    intro kb h
    exact h
  | cons op ops ih =>
    intro kb h
    exact ih _ (keyboard_nodup_step kb op h)

/-- C9 amended: `key_press` reports true and appends the keycode exactly
when it was not pressed, and is a no-op reporting false otherwise;
`key_release` reports true exactly when the keycode was pressed and removes
its first occurrence; the pressed-key list of every reachable keyboard state
is duplicate-free; and a press/release pair restores the prior state
provided the key was not already pressed (the unconditional restoration of
the original claim fails, see the counterexample). -/
theorem c9_key_press_release :
    ∀ (kb : Keyboard) (k : Nat),
      ((kb.key_press k).1 = true ↔ k ∉ kb.pressed_keys)
      ∧ (k ∉ kb.pressed_keys →
          (kb.key_press k).2.pressed_keys = kb.pressed_keys ++ [k])
      ∧ (k ∈ kb.pressed_keys → kb.key_press k = (false, kb))
      ∧ ((kb.key_release k).1 = true ↔ k ∈ kb.pressed_keys)
      ∧ ((kb.key_release k).2.pressed_keys = kb.pressed_keys.erase k)
      ∧ (∀ ops : List KeyOp, (runKeyOps ops).pressed_keys.Nodup)
      ∧ (k ∉ kb.pressed_keys → ((kb.key_press k).2.key_release k).2 = kb) := by
  intro kb k
  have hnodup : ∀ ops : List KeyOp, (runKeyOps ops).pressed_keys.Nodup :=
    fun ops => runKeyOpsFrom_nodup ops Keyboard.new List.nodup_nil
  by_cases hc : k ∈ kb.pressed_keys
  · refine ⟨?_, ?_, ?_, ?_, ?_, hnodup, ?_⟩
    · simp [Keyboard.key_press, hc]
    · intro habs
      exact absurd hc habs
    · simp [Keyboard.key_press, hc]
    · simp [Keyboard.key_release, hc]
    · simp [Keyboard.key_release, hc]
    · intro habs
      exact absurd hc habs
  · refine ⟨?_, ?_, ?_, ?_, ?_, hnodup, ?_⟩
    · simp [Keyboard.key_press, hc]
    · intro _
      simp [Keyboard.key_press, hc]
    · intro habs
      exact absurd habs hc
    · simp [Keyboard.key_release, hc]
    · simp [Keyboard.key_release, hc, List.erase_of_not_mem hc]
    · intro _
      have herase : (kb.pressed_keys ++ [k]).erase k = kb.pressed_keys := by
        rw [List.erase_append_right _ hc, List.erase_cons_head, List.append_nil]
      simp [Keyboard.key_press, Keyboard.key_release, hc, herase]

/-- C9 witness: pressing then releasing key 5 on a fresh keyboard appends
then removes it, restoring the initial state, by the tracking theorem
instantiated concretely. -/
theorem c9_key_press_release_witness :
    ((Keyboard.new.key_press 5).2.pressed_keys = Keyboard.new.pressed_keys ++ [5])
    ∧ (((Keyboard.new.key_press 5).2.key_release 5).2 = Keyboard.new) :=
  ⟨(c9_key_press_release Keyboard.new 5).2.1 (by decide),
   (c9_key_press_release Keyboard.new 5).2.2.2.2.2.2 (by decide)⟩

/-- The two passes of `WindowManager::set_focused` as a single map. -/
theorem set_focused_windows_eq (m : WindowManager) (id : Option Nat) :
    (m.set_focused id).windows
      = m.windows.map (fun w => focusMarkStep id (focusClearStep m.focused_window w)) := by
  cases hfw : m.focused_window <;> cases id <;>
    simp [WindowManager.set_focused, focusClearStep, focusMarkStep, hfw,
          List.map_map, Function.comp]

/-- `set_focused` records exactly its argument. -/
theorem set_focused_fw_eq (m : WindowManager) (id : Option Nat) :
    (m.set_focused id).focused_window = id := by
  cases hfw : m.focused_window <;> cases id <;>
    simp [WindowManager.set_focused, hfw]

/-- `set_focused` leaves the id counter alone. -/
theorem set_focused_next_eq (m : WindowManager) (id : Option Nat) :
    (m.set_focused id).nextWindowId = m.nextWindowId := by
  cases hfw : m.focused_window <;> cases id <;>
    simp [WindowManager.set_focused, hfw]

/-- The focus passes never change a window id. -/
theorem focusStep_id (prev id : Option Nat) (w : Window) :
    (focusMarkStep id (focusClearStep prev w)).id = w.id := by
  cases prev <;> cases id <;>
    simp only [focusClearStep, focusMarkStep, Window.set_focused, Window.set_activated] <;>
    split_ifs <;> rfl

/-- Flag setters never change the id. -/
theorem window_flag_id (w : Window) (b c : Bool) :
    ((w.set_focused b).set_activated c).id = w.id := rfl

/-- The clearing pass on the previously focused window. -/
theorem clearStep_some_pos {p : Nat} {w : Window} (h : w.id = p) :
    focusClearStep (some p) w = (w.set_focused false).set_activated false := by
  simp [focusClearStep, h]

/-- The clearing pass on any other window. -/
theorem clearStep_some_neg {p : Nat} {w : Window} (h : ¬ w.id = p) :
    focusClearStep (some p) w = w := by
  simp [focusClearStep, h]

/-- The clearing pass without a previously recorded window. -/
theorem clearStep_none (w : Window) : focusClearStep none w = w := rfl

/-- The marking pass on the newly focused window. -/
theorem markStep_some_pos {n : Nat} {w : Window} (h : w.id = n) :
    focusMarkStep (some n) w = (w.set_focused true).set_activated true := by
  simp [focusMarkStep, h]

/-- The marking pass on any other window. -/
theorem markStep_some_neg {n : Nat} {w : Window} (h : ¬ w.id = n) :
    focusMarkStep (some n) w = w := by
  simp [focusMarkStep, h]

/-- The marking pass when focus is being cleared. -/
theorem markStep_none (w : Window) : focusMarkStep none w = w := rfl

/-- The focused flag after the two passes of `set_focused`. -/
theorem focusStep_focused (prev id : Option Nat) (w : Window) :
    (focusMarkStep id (focusClearStep prev w)).state.focused
      = if id = some w.id then true
        else if prev = some w.id then false
        else w.state.focused := by
  cases prev with
  | none =>
    rw [clearStep_none]
    cases id with
    | none =>
      rw [markStep_none]
      simp
    | some n =>
      by_cases hn : w.id = n
      · rw [markStep_some_pos hn]
        subst hn
        simp [Window.set_focused, Window.set_activated]
      · rw [markStep_some_neg hn]
        have hne : ¬ (some n = some w.id) := fun hc => hn (Option.some.inj hc).symm
        simp [hne]
  | some p =>
    by_cases hp : w.id = p
    · rw [clearStep_some_pos hp]
      cases id with
      | none =>
        rw [markStep_none]
        subst hp
        simp [Window.set_focused, Window.set_activated]
      | some n =>
        by_cases hn : w.id = n
        · have hn2 : ((w.set_focused false).set_activated false).id = n := hn
          rw [markStep_some_pos hn2]
          subst hn
          simp [Window.set_focused, Window.set_activated]
        · have hn2 : ¬ ((w.set_focused false).set_activated false).id = n := hn
          rw [markStep_some_neg hn2]
          subst hp
          have hne : ¬ (some n = some w.id) := fun hc => hn (Option.some.inj hc).symm
          simp [hne, Window.set_focused, Window.set_activated]
    · rw [clearStep_some_neg hp]
      cases id with
      | none =>
        rw [markStep_none]
        have hne : ¬ (some p = some w.id) := fun hc => hp (Option.some.inj hc).symm
        simp [hne]
      | some n =>
        by_cases hn : w.id = n
        · rw [markStep_some_pos hn]
          subst hn
          simp [Window.set_focused, Window.set_activated]
        · rw [markStep_some_neg hn]
          have h1 : ¬ (some n = some w.id) := fun hc => hn (Option.some.inj hc).symm
          have h2 : ¬ (some p = some w.id) := fun hc => hp (Option.some.inj hc).symm
          simp [h1, h2]

/-- The focus passes preserve the id list. -/
theorem set_focused_ids (m : WindowManager) (id : Option Nat) :
    (m.set_focused id).windows.map Window.id = m.windows.map Window.id := by
  rw [set_focused_windows_eq, List.map_map]
  exact List.map_congr_left (fun w _ => focusStep_id m.focused_window id w)

/-- The reachable-state invariant is preserved by every operation. -/
theorem wmInv_step (m : WindowManager) (op : WmOp) (h : WmInv m) :
    WmInv (applyWmOp m op) := by
  obtain ⟨hA, hB, hC⟩ := h
  cases op with
  | create sid =>
    have heq : applyWmOp m (WmOp.create sid)
        = { m with
              windows := m.windows ++ [Window.new m.nextWindowId sid],
              surface_to_window := (sid, m.nextWindowId) ::
                m.surface_to_window.filter (fun e => e.1 ≠ sid),
              nextWindowId := m.nextWindowId + 1 } := rfl
    rw [heq]
    refine ⟨?_, ?_, ?_⟩
    · intro w hw hf
      rcases List.mem_append.mp hw with hw0 | hw0
      · exact hA w hw0 hf
      · rcases List.mem_singleton.mp hw0 with rfl
        cases hf
    · show (List.map Window.id (m.windows ++ [Window.new m.nextWindowId sid])).Nodup
      rw [List.map_append]
      refine List.nodup_append.mpr ⟨hB, List.nodup_singleton _, ?_⟩
      intro a ha hb
      rcases List.mem_singleton.mp hb with rfl
      rcases List.mem_map.mp ha with ⟨w, hw, hid⟩
      have := hC w hw
      simp only [Window.new] at hid
      omega
    · intro w hw
      rcases List.mem_append.mp hw with hw0 | hw0
      · exact Nat.lt_succ_of_lt (hC w hw0)
      · rcases List.mem_singleton.mp hw0 with rfl
        exact Nat.lt_succ_self _
  | setFocused id =>
    have heq : applyWmOp m (WmOp.setFocused id) = m.set_focused id := rfl
    rw [heq]
    refine ⟨?_, ?_, ?_⟩
    · intro w hw hf
      rw [set_focused_fw_eq]
      rw [set_focused_windows_eq] at hw
      rcases List.mem_map.mp hw with ⟨v, hv, rfl⟩
      rw [focusStep_focused] at hf
      rw [focusStep_id]
      by_cases h1 : id = some v.id
      · exact h1
      · rw [if_neg h1] at hf
        by_cases h2 : m.focused_window = some v.id
        · rw [if_pos h2] at hf
          cases hf
        · rw [if_neg h2] at hf
          exact absurd (hA v hv hf) h2
    · rw [set_focused_ids]
      exact hB
    · intro w hw
      rw [set_focused_next_eq]
      rw [set_focused_windows_eq] at hw
      rcases List.mem_map.mp hw with ⟨v, hv, rfl⟩
      rw [focusStep_id]
      exact hC v hv
  | remove id =>
    cases hf : m.windows.find? (fun w => w.id == id) with
    | none =>
      simpa [applyWmOp, WindowManager.remove, hf] using ⟨hA, hB, hC⟩
    | some w0 =>
      simp only [applyWmOp, WindowManager.remove, hf]
      refine ⟨?_, ?_, ?_⟩
      · intro w hw hfoc
        rcases List.mem_filter.mp hw with ⟨hw0, hne⟩
        have hne2 : w.id ≠ id := by
          simpa using hne
        have hfw := hA w hw0 hfoc
        simp [hfw, hne2]
      · have hsub : (List.filter (fun v => decide (v.id ≠ id)) m.windows).Sublist m.windows :=
          List.filter_sublist _
        exact List.Nodup.sublist (hsub.map Window.id) hB
      · intro w hw
        exact hC w (List.mem_filter.mp hw).1

/-- With valid arguments, every operation also preserves the strengthened
focus invariant. -/
theorem wmInvStrong_step (m : WindowManager) (op : WmOp)
    (h : WmInvStrong m) (hv : wmOpValid m op = true) :
    WmInvStrong (applyWmOp m op) := by
  obtain ⟨hInv, hD, hE⟩ := h
  have hInv2 := wmInv_step m op hInv
  obtain ⟨hA, hB, hC⟩ := hInv
  refine ⟨hInv2, ?_, ?_⟩
  · cases op with
    | create sid =>
      have heq : applyWmOp m (WmOp.create sid)
          = { m with
                windows := m.windows ++ [Window.new m.nextWindowId sid],
                surface_to_window := (sid, m.nextWindowId) ::
                  m.surface_to_window.filter (fun e => e.1 ≠ sid),
                nextWindowId := m.nextWindowId + 1 } := rfl
      rw [heq]
      intro w hw hfw
      rcases List.mem_append.mp hw with hw0 | hw0
      · exact hD w hw0 hfw
      · rcases List.mem_singleton.mp hw0 with rfl
        rcases hE _ hfw with ⟨v, hv2, hvid⟩
        have := hC v hv2
        simp only [Window.new] at hvid
        omega
    | setFocused id =>
      have heq : applyWmOp m (WmOp.setFocused id) = m.set_focused id := rfl
      rw [heq]
      intro w hw hfw
      rw [set_focused_fw_eq] at hfw
      rw [set_focused_windows_eq] at hw
      rcases List.mem_map.mp hw with ⟨v, hv2, rfl⟩
      rw [focusStep_id] at hfw
      rw [focusStep_focused, if_pos hfw]
    | remove id =>
      cases hf : m.windows.find? (fun w => w.id == id) with
      | none =>
        have heq : applyWmOp m (WmOp.remove id) = m := by
          simp [applyWmOp, WindowManager.remove, hf]
        rw [heq]
        exact hD
      | some w0 =>
        have heq : applyWmOp m (WmOp.remove id)
            = { m with
                  windows := m.windows.filter (fun v => v.id ≠ id),
                  surface_to_window :=
                    m.surface_to_window.filter (fun e => e.1 ≠ w0.surface_id),
                  focused_window :=
                    if m.focused_window = some id then none else m.focused_window } := by
          simp [applyWmOp, WindowManager.remove, hf]
        rw [heq]
        intro w hw hfw
        by_cases hc : m.focused_window = some id
        · rw [if_pos hc] at hfw
          cases hfw
        · rw [if_neg hc] at hfw
          exact hD w (List.mem_filter.mp hw).1 hfw
  · cases op with
    | create sid =>
      have heq : applyWmOp m (WmOp.create sid)
          = { m with
                windows := m.windows ++ [Window.new m.nextWindowId sid],
                surface_to_window := (sid, m.nextWindowId) ::
                  m.surface_to_window.filter (fun e => e.1 ≠ sid),
                nextWindowId := m.nextWindowId + 1 } := rfl
      rw [heq]
      intro i hfw
      rcases hE i hfw with ⟨v, hv2, hvid⟩
      exact ⟨v, List.mem_append.mpr (Or.inl hv2), hvid⟩
    | setFocused id =>
      have heq : applyWmOp m (WmOp.setFocused id) = m.set_focused id := rfl
      rw [heq]
      intro i hfw
      rw [set_focused_fw_eq] at hfw
      subst hfw
      have hv2 : (m.windows.any (fun w => w.id == i)) = true := hv
      rcases List.any_eq_true.mp hv2 with ⟨v, hv3, hvi⟩
      have hvi2 : v.id = i := by simpa using hvi
      refine ⟨focusMarkStep (some i) (focusClearStep m.focused_window v), ?_, ?_⟩
      · rw [set_focused_windows_eq]
        exact List.mem_map.mpr ⟨v, hv3, rfl⟩
      · rw [focusStep_id]
        exact hvi2
    | remove id =>
      cases hf : m.windows.find? (fun w => w.id == id) with
      | none =>
        have heq : applyWmOp m (WmOp.remove id) = m := by
          simp [applyWmOp, WindowManager.remove, hf]
        rw [heq]
        exact hE
      | some w0 =>
        have heq : applyWmOp m (WmOp.remove id)
            = { m with
                  windows := m.windows.filter (fun v => v.id ≠ id),
                  surface_to_window :=
                    m.surface_to_window.filter (fun e => e.1 ≠ w0.surface_id),
                  focused_window :=
                    if m.focused_window = some id then none else m.focused_window } := by
          simp [applyWmOp, WindowManager.remove, hf]
        rw [heq]
        intro i hfw
        have hfw2 : (if m.focused_window = some id then none else m.focused_window)
            = some i := hfw
        by_cases hc : m.focused_window = some id
        · rw [if_pos hc] at hfw2
          cases hfw2
        · rw [if_neg hc] at hfw2
          rcases hE i hfw2 with ⟨v, hv2, hvid⟩
          have hvne : v.id ≠ id := by
            intro hcon
            apply hc
            rw [hfw2, ← hvid, hcon]
          exact ⟨v, List.mem_filter.mpr ⟨hv2, by simpa using hvne⟩, hvid⟩

/-- The reachable-state invariant holds along every run. -/
theorem wmInv_run (ops : List WmOp) :
    ∀ m : WindowManager, WmInv m → WmInv (runWmFrom m ops) := by
  induction ops with
  | nil =>
    intro m h
    exact h
  | cons op ops ih =>
    intro m h
    exact ih _ (wmInv_step m op h)

/-- The strengthened invariant holds along every valid run. -/
theorem wmInvStrong_run (ops : List WmOp) :
    ∀ m : WindowManager, WmInvStrong m → wmValidRun m ops = true →
      WmInvStrong (runWmFrom m ops) := by
  induction ops with
  | nil =>
    intro m h _
    exact h
  | cons op ops ih =>
    intro m h hv
    simp only [wmValidRun, Bool.and_eq_true] at hv
    exact ih _ (wmInvStrong_step m op h hv.1) hv.2

/-- The initial window manager satisfies the invariant. -/
theorem wmInv_init : WmInv WindowManager.new := by
  refine ⟨?_, ?_, ?_⟩ <;> simp [WindowManager.new]

/-- The initial window manager satisfies the strengthened invariant. -/
theorem wmInvStrong_init : WmInvStrong WindowManager.new := by
  refine ⟨wmInv_init, ?_, ?_⟩ <;> simp [WindowManager.new]

/-- C10 amended: along every operation history, every window whose focused
flag is set is the recorded focused window — hence at most one window is
focused; when `set_focused` is only invoked with `none` or ids of existing
windows, the flag is set exactly on the recorded window; and removing the
window recorded as focused clears the recorded focus.  (The unrestricted
flag-iff-recorded biconditional of the original claim fails, see the
counterexample.) -/
theorem c10_focus_tracking :
    ∀ ops : List WmOp,
      (∀ w ∈ (runWm ops).windows, w.state.focused = true →
          (runWm ops).focused_window = some w.id)
      ∧ (∀ w ∈ (runWm ops).windows, ∀ v ∈ (runWm ops).windows,
          w.state.focused = true → v.state.focused = true → w = v)
      ∧ (wmValidRun WindowManager.new ops = true →
          ∀ w ∈ (runWm ops).windows,
            (w.state.focused = true ↔ (runWm ops).focused_window = some w.id))
      ∧ (∀ (m : WindowManager) (id : Nat),
          (∃ w ∈ m.windows, w.id = id) → m.focused_window = some id →
          ((m.remove id).2).focused_window = none) := by
  intro ops
  obtain ⟨hA, hB, hC⟩ := wmInv_run ops WindowManager.new wmInv_init
  refine ⟨hA, ?_, ?_, ?_⟩
  · intro w hw v hv hfw hfv
    have h1 := hA w hw hfw
    have h2 := hA v hv hfv
    rw [h1] at h2
    exact List.inj_on_of_nodup_map hB hw hv (Option.some.inj h2)
  · intro hvalid w hw
    obtain ⟨_, hD, _⟩ := wmInvStrong_run ops WindowManager.new wmInvStrong_init hvalid
    exact ⟨hA w hw, hD w hw⟩
  · intro m id hex hfw
    rcases hex with ⟨w, hw, rfl⟩
    cases hf : m.windows.find? (fun v => v.id == w.id) with
    | none =>
      exfalso
      have hsome : (m.windows.find? (fun v => v.id == w.id)).isSome = true :=
        List.find?_isSome.mpr ⟨w, hw, by simp⟩
      rw [hf] at hsome
      cases hsome
    | some w0 =>
      simp [WindowManager.remove, hf, hfw]

/-- C10 witness: after creating a window for surface 7 and validly focusing
it, the flag-iff-recorded biconditional holds for every window, and removing
the focused window clears the recorded focus, by the tracking theorem
instantiated concretely. -/
theorem c10_focus_tracking_witness :
    (∀ w ∈ (runWm [WmOp.create 7, WmOp.setFocused (some 1)]).windows,
        (w.state.focused = true ↔
          (runWm [WmOp.create 7, WmOp.setFocused (some 1)]).focused_window = some w.id))
    ∧ (((runWm [WmOp.create 7, WmOp.setFocused (some 1)]).remove 1).2).focused_window
        = none :=
  ⟨(c10_focus_tracking [WmOp.create 7, WmOp.setFocused (some 1)]).2.2.1 (by decide),
   (c10_focus_tracking [WmOp.create 7, WmOp.setFocused (some 1)]).2.2.2
      (runWm [WmOp.create 7, WmOp.setFocused (some 1)]) 1
      (by decide) (by decide)⟩

end Wayoa
